import Mathlib

/-!
Shallow embedding of the goscp SCP client (package `goscp`): the message
codec (the regular expressions `fileCopyRx`, `dirCopyRx`, `timestampRx`
together with `parseMessage`), the directory stack (`upDirectory`), the
sink-mode handlers `file` and `directory`, the source-mode `handleItem`
logic and the end-of-transfer step of `handleUpload`, the cancellable
reader `readCanceller`, and the error stack (`addError`, `GetLastError`,
`GetErrorStack`).

Strings are modelled as Lean `String` (lists of characters), byte streams
as `List Nat`, and the local filesystem effects as explicit result values.
-/

/-- The character of a single digit `d` (`'0' + d`), as printed by Go's
`fmt` verbs `%d` and `%o`. -/
def digitChar (d : Nat) : Char := Char.ofNat (48 + d)

/-- Digits of `n` in base `b`, most significant first; `fuel` bounds the
recursion (callers pass `n` itself, which always suffices).  Empty for 0. -/
def toBaseAux (b : Nat) : Nat → Nat → List Char
  | 0, _ => []
  | fuel + 1, n => if n = 0 then [] else toBaseAux b fuel (n / b) ++ [digitChar (n % b)]

/-- Go's `fmt` verb `%d` on a natural number: decimal digits. -/
def decChars (n : Nat) : List Char := if n = 0 then ['0'] else toBaseAux 10 n n

/-- Go's `fmt` verb `%o` on a natural number: octal digits. -/
def octChars (n : Nat) : List Char := if n = 0 then ['0'] else toBaseAux 8 n n

/-- Go's `strings.Split(s, sep)` for a one-character separator, acting on
the character list of `s`; splitting the empty list yields `[[]]`, so the
result is never empty. -/
def splitChars (sep : Char) : List Char → List (List Char)
  | [] => [[]]
  | c :: rest =>
    if c = sep then [] :: splitChars sep rest
    else
      match splitChars sep rest with
      | [] => [[c]]
      | h :: t => (c :: h) :: t

/-- Go's `strings.Split(s, "/")`. -/
def goSplit (s : String) : List String := (splitChars '/' s.data).map String.mk

/-- One step of the lexical processing of Go's `path/filepath.Clean`
(unix separators), over path segments kept in reverse order: empty and
`"."` segments are dropped, `".."` pops the previous segment when there is
one to pop (and is kept when the path is relative and nothing precedes
it, dropped at the root of an absolute path). -/
def cleanFold (rooted : Bool) (acc : List String) (seg : String) : List String :=
  if seg = "" ∨ seg = "." then acc
  else if seg = ".." then
    match acc with
    | [] => if rooted then [] else [".."]
    | a :: rest => if a = ".." then ".." :: a :: rest else rest
  else seg :: acc

/-- Go's `path/filepath.Clean` with unix separators. -/
def goClean (p : String) : String :=
  if p = "" then "."
  else
    let rooted : Bool := p.data.head? == some '/'
    let segs := ((splitChars '/' p.data).map String.mk).foldl (cleanFold rooted) []
    let body := String.intercalate "/" segs.reverse
    if rooted then (if body = "" then "/" else "/" ++ body)
    else (if body = "" then "." else body)

/-- Go's `path/filepath.Join`: skips leading empty elements, joins the
remaining ones with `/` and cleans the result; with no non-empty element
the result is `""`. -/
def goJoin (elems : List String) : String :=
  match elems.dropWhile (· = "") with
  | [] => ""
  | rest => goClean (String.intercalate "/" rest)

/-- Go's `path/filepath.Base` with unix separators. -/
def goBase (p : String) : String :=
  if p = "" then "."
  else
    let segs := ((splitChars '/' p.data).map String.mk).filter (· ≠ "")
    match segs.getLast? with
    | some s => s
    | none => "/"

/-- Go's `strconv.Atoi` as the sink uses it: the value of a decimal digit
string, and 0 otherwise (the code discards the error return, and Go then
leaves the value 0). -/
def goAtoi (s : String) : Nat :=
  if s.data ≠ [] ∧ s.data.all Char.isDigit then
    s.data.foldl (fun a c => a * 10 + (c.toNat - 48)) 0
  else 0

/-! ## Message codec

The three package-level regular expressions

  fileCopyRx  = `C(?P<mode>\d{4}) (?P<length>\d+) (?P<filename>.+)`
  dirCopyRx   = `D(?P<mode>\d{4}) (?P<length>\d+) (?P<dirname>.+)`
  timestampRx = `T(?P<mtime>\d+) 0 (?P<atime>\d+) 0`

are unanchored; `FindStringSubmatch` returns the leftmost match.  In all
three patterns every repetition is forced: a shorter `\d+` would have to
be followed by a digit where the pattern demands a space, and the trailing
`.+` is a final greedy run of non-newline characters, so matching at a
given start position is deterministic and the whole search is "first
position where the structural match below succeeds". -/

/-- Captures of a `C.../D...` message match: the whole matched substring
and the `mode`, `length` and `filename`/`dirname` groups. -/
structure CDMatch where
  whole : List Char
  mode : List Char
  len : List Char
  name : List Char
  deriving DecidableEq

/-- Match `fileCopyRx`/`dirCopyRx` (with lead character `'C'`/`'D'`) at
the start of the given character list. -/
def matchCDAt (lead : Char) : List Char → Option CDMatch
  | c :: d1 :: d2 :: d3 :: d4 :: ' ' :: rest =>
    if c = lead ∧ d1.isDigit ∧ d2.isDigit ∧ d3.isDigit ∧ d4.isDigit then
      let len := rest.takeWhile Char.isDigit
      match rest.dropWhile Char.isDigit with
      | ' ' :: rest2 =>
        let name := rest2.takeWhile (· ≠ '\n')
        if len ≠ [] ∧ name ≠ [] then
          some ⟨c :: d1 :: d2 :: d3 :: d4 :: ' ' :: (len ++ ' ' :: name),
                [d1, d2, d3, d4], len, name⟩
        else none
      | _ => none
    else none
  | _ => none

/-- Leftmost match of `fileCopyRx`/`dirCopyRx` in a character list. -/
def findCD (lead : Char) : List Char → Option CDMatch
  | [] => none
  | c :: rest =>
    match matchCDAt lead (c :: rest) with
    | some m => some m
    | none => findCD lead rest

/-- Captures of a timestamp message match. -/
structure TMatch where
  whole : List Char
  mtime : List Char
  atime : List Char
  deriving DecidableEq

/-- Match `timestampRx` at the start of the given character list. -/
def matchTAt : List Char → Option TMatch
  | 'T' :: rest =>
    let m := rest.takeWhile Char.isDigit
    match rest.dropWhile Char.isDigit with
    | ' ' :: '0' :: ' ' :: rest2 =>
      let a := rest2.takeWhile Char.isDigit
      match rest2.dropWhile Char.isDigit with
      | ' ' :: '0' :: _ =>
        if m ≠ [] ∧ a ≠ [] then
          some ⟨'T' :: m ++ ' ' :: '0' :: ' ' :: a ++ [' ', '0'], m, a⟩
        else none
      | _ => none
    | _ => none
  | _ => none

/-- Leftmost match of `timestampRx` in a character list. -/
def findT : List Char → Option TMatch
  | [] => none
  | c :: rest =>
    match matchTAt (c :: rest) with
    | some m => some m
    | none => findT rest

/-- `fileCopyRx.FindStringSubmatch` followed by the named-group map that
`parseMessage` builds from `SubexpNames` (`""` is the whole match). -/
def fileCopyRx (s : String) : Option (List (String × String)) :=
  (findCD 'C' s.data).map fun r =>
    [("", String.mk r.whole), ("mode", String.mk r.mode),
     ("length", String.mk r.len), ("filename", String.mk r.name)]

/-- `dirCopyRx.FindStringSubmatch` with its named-group map. -/
def dirCopyRx (s : String) : Option (List (String × String)) :=
  (findCD 'D' s.data).map fun r =>
    [("", String.mk r.whole), ("mode", String.mk r.mode),
     ("length", String.mk r.len), ("dirname", String.mk r.name)]

/-- `timestampRx.FindStringSubmatch` with its named-group map. -/
def timestampRx (s : String) : Option (List (String × String)) :=
  (findT s.data).map fun r =>
    [("", String.mk r.whole), ("mtime", String.mk r.mtime),
     ("atime", String.mk r.atime)]

/-- Go map lookup `parts[k]` on the association list: missing keys give
the empty string, as a Go `map[string]string` does. -/
def mapGet (parts : List (String × String)) (k : String) : String :=
  match parts.find? (fun p => p.1 == k) with
  | some p => p.2
  | none => ""

/-- `Client.parseMessage`: apply the regular expression; with no match,
fail with `"Could not parse protocol message: " + msg`. -/
def parseMessage (rx : String → Option (List (String × String))) (msg : String) :
    Except String (List (String × String)) :=
  match rx msg with
  | none => .error ("Could not parse protocol message: " ++ msg)
  | some parts => .ok parts

/-! ## Source-mode message formatting -/

/-- The line built by `sendDirectoryMessage`: `fmt.Sprintf("D0%o 0 %s", mode, dirname)`
(the function then writes it with a trailing newline). -/
def sendDirectoryMessage (mode : Nat) (dirname : String) : String :=
  String.mk ('D' :: '0' :: octChars mode ++ ' ' :: '0' :: ' ' :: dirname.data)

/-- The line built by `sendFileMessage`: `fmt.Sprintf("C0%o %d %s", mode, size, filename)`
(the function then writes it with a trailing newline). -/
def sendFileMessage (mode : Nat) (size : Nat) (filename : String) : String :=
  String.mk ('C' :: '0' :: octChars mode ++ ' ' :: decChars size ++ ' ' :: filename.data)

/-- Modelled from the spec: the timestamp wire shape `T<mtime> 0 <atime> 0`
(§4.1 of the specification).  The repository has no sender for timestamp
messages, only the `timestampRx` decoder, so the encoder is taken from the
spec's exact shape. -/
def timestampLine (mtime atime : Nat) : String :=
  String.mk ('T' :: decChars mtime ++ ' ' :: '0' :: ' ' :: decChars atime ++ [' ', '0'])

/-! ## Directory stack and error stack -/

/-- `Client.upDirectory`: drop the last segment of `DestinationPath` when
it is non-empty, otherwise leave it as is. -/
def upDirectory (dest : List String) : List String :=
  if dest.length > 0 then dest.dropLast else dest

/-- `Client.addError`: append to the error slice. -/
def addError (errs : List String) (e : String) : List String := errs ++ [e]

/-- `Client.GetLastError`: the last appended error, `none` with no errors. -/
def GetLastError (errs : List String) : Option String :=
  if errs.length > 0 then errs.getLast? else none

/-- `Client.GetErrorStack`: all recorded errors, in order. -/
def GetErrorStack (errs : List String) : List String := errs

/-! ## Sink-mode handlers

The handlers' filesystem and stream side effects are returned as explicit
values: the path and contents of the created file or directory, the bytes
written to the outbound stream (`sendErr` writes the single byte `0x02`),
the returned error, and the rest of the inbound stream. -/

/-- Result of `Client.file`. -/
structure FileResult where
  /-- Path and contents of the file created by `os.Create` / `io.CopyN`. -/
  created : Option (String × List Nat)
  /-- Bytes written to the outbound stream (`sendErr` writes `0x02`). -/
  outBytes : List Nat
  /-- The error returned by the handler. -/
  err : Option String
  /-- The inbound stream after the copy. -/
  rest : List Nat

/-- `Client.file`: parse the message with `fileCopyRx`, create the local
file at `filepath.Join(DestinationPath...) + "/" + filename`, and copy
exactly `length` bytes from the inbound stream into it; when the stream
ends first, `io.CopyN` returns a short count with `io.EOF`, the handler
sends the error control byte and returns that error. -/
def file (dest : List String) (msg : String) (stream : List Nat) : FileResult :=
  match parseMessage fileCopyRx msg with
  | .error e => ⟨none, [], some e, stream⟩
  | .ok parts =>
    let fileLen := goAtoi (mapGet parts "length")
    let path := goJoin dest ++ "/" ++ mapGet parts "filename"
    if stream.length < fileLen then
      ⟨some (path, stream.take fileLen), [0x02], some "EOF", stream.drop fileLen⟩
    else
      ⟨some (path, stream.take fileLen), [], none, stream.drop fileLen⟩

/-- Result of `Client.directory`. -/
structure DirResult where
  /-- Path of the directory created by `os.Mkdir`. -/
  createdDir : Option String
  /-- The error returned by the handler. -/
  err : Option String
  /-- `DestinationPath` after the handler. -/
  stack : List String

/-- `Client.directory`: parse the message with `dirCopyRx`, create the
directory at `filepath.Join(DestinationPath...) + "/" + dirname`
(`os.Mkdir` fails when the path already exists), then push `dirname` onto
`DestinationPath`.  `existing` is the set of paths already present. -/
def directory (dest : List String) (existing : List String) (msg : String) : DirResult :=
  match parseMessage dirCopyRx msg with
  | .error e => ⟨none, some e, dest⟩
  | .ok parts =>
    let path := goJoin dest ++ "/" ++ mapGet parts "dirname"
    if path ∈ existing then
      ⟨none, some ("mkdir " ++ path ++ ": file exists"), dest⟩
    else
      ⟨some path, none, dest ++ [mapGet parts "dirname"]⟩

/-! ## Source-mode traversal (`handleItem`, `handleUpload`) -/

/-- Messages emitted on the outbound stream by the source engine. -/
inductive Msg where
  /-- The end-of-directory line `E`. -/
  | endOfDir : Msg
  /-- A `D0<mode> 0 <dirname>` line. -/
  | dirCopy (mode : Nat) (dirname : String) : Msg
  deriving DecidableEq

/-- The directory branch of `Client.handleItem`: when `DestinationPath` is
non-empty, compare the segment count of `strings.Split(filepath.Join(DestinationPath...), "/")`
with that of `strings.Split(path, "/")` and, when the new path is not
deeper, send one end-of-directory message for each `i` in
`[len(newPath)-1, len(currentPath))`; then reset `DestinationPath` to
`[path]` and send the directory message (mode fixed at `0644`).
Returns the emitted messages and the new `DestinationPath`. -/
def handleDirItem (stack : List String) (path : String) : List Msg × List String :=
  let eods :=
    if stack.length ≠ 0 then
      let currentPath := goSplit (goJoin stack)
      let newPath := goSplit path
      if newPath.length ≤ currentPath.length then
        List.replicate (currentPath.length - (newPath.length - 1)) Msg.endOfDir
      else []
    else []
  (eods ++ [Msg.dirCopy 0o644 (goBase path)], [path])

/-- One entry yielded by `filepath.Walk` to `handleItem`. -/
structure WalkItem where
  /-- The entry's path. -/
  path : String
  /-- `info.IsDir()`. -/
  isDir : Bool
  deriving DecidableEq

/-- The effect of one `handleItem` call on `DestinationPath`: a directory
entry resets it to `[path]`; a file entry (and an error entry, which is
skipped or aborts the walk) leaves it untouched. -/
def handleItemStack (stack : List String) (item : WalkItem) : List String :=
  if item.isDir then [item.path] else stack

/-- `DestinationPath` after `handleUpload` resets it to `[]` and the walk
feeds every entry through `handleItem`. -/
def uploadFinalStack (items : List WalkItem) : List String :=
  items.foldl handleItemStack []

/-- The end-of-transfer step of `handleUpload`:
`paths := strings.Split(c.DestinationPath[0], "/")` followed by one
end-of-directory message per element of `paths`.  Indexing element 0 of an
empty slice panics in Go, modelled here by `none`. -/
def endTransferEODCount (stack : List String) : Option Nat :=
  match stack with
  | [] => none
  | p :: _ => some (goSplit p).length

/-! ## Cancellable reader -/

/-- `readCanceller`: a buffered inbound stream plus the cancellation
channel; `cancelled` is true once `Cancel` has closed the channel
(a closed channel makes the `select` receive case permanently ready). -/
structure readCanceller where
  /-- Contents of the wrapped `bufio.Reader`. -/
  buffered : List Nat
  /-- Whether the `cancel` channel has been closed. -/
  cancelled : Bool
  deriving DecidableEq

/-- `Client.Cancel`: close the cancellation channel. -/
def Cancel (r : readCanceller) : readCanceller := { r with cancelled := true }

/-- A read from the underlying `bufio.Reader`: at end of stream it
returns `io.EOF`, otherwise up to `n` buffered bytes. -/
def bufRead (buf : List Nat) (n : Nat) : Except String (List Nat) × List Nat :=
  if buf = [] then (.error "EOF", [])
  else (.ok (buf.take n), buf.drop n)

/-- `readCanceller.Read`: the `select` takes the receive case exactly when
the channel is closed, returning the `Transfer cancelled` error without
touching the wrapped reader; otherwise the `default` case delegates to the
wrapped reader and returns its result unchanged. -/
def readCancellerRead (r : readCanceller) (n : Nat) :
    Except String (List Nat) × readCanceller :=
  if r.cancelled then (.error "Transfer cancelled", r)
  else
    let (res, rest) := bufRead r.buffered n
    (res, { r with buffered := rest })

/-- The results of a sequence of `Read` calls with the given buffer sizes. -/
def readTrace (r : readCanceller) : List Nat → List (Except String (List Nat))
  | [] => []
  | n :: ns =>
    let (res, r2) := readCancellerRead r n
    res :: readTrace r2 ns

/-! ## Theorems -/

/-- C4: `upDirectory` is total, its result has length `max 0 (length - 1)`
(natural subtraction), and on an empty or single-element stack it yields
the empty stack. -/
theorem upDirectory_total_nonneg :
    (∀ dest : List String, (upDirectory dest).length = dest.length - 1)
    ∧ upDirectory [] = []
    ∧ (∀ x : String, upDirectory [x] = []) := by
  refine ⟨fun dest => ?_, rfl, fun x => rfl⟩
  unfold upDirectory
  by_cases h : dest.length > 0
  · simp [h]
  · simp only [h, if_false]
    omega

/-- Helper: folding `addError` over a list appends it. -/
theorem foldl_addError (es acc : List String) :
    es.foldl addError acc = acc ++ es := by
  induction es generalizing acc with
  | nil => simp
  | cons e es ih => simp [addError, ih]

/-- C8: recording a sequence of errors with `addError` leaves exactly that
sequence, in chronological order, in `GetErrorStack`; `GetLastError` is
`none` with no recorded error and the most recently appended one
otherwise. -/
theorem error_stack_order :
    ∀ es : List String,
      GetErrorStack (es.foldl addError []) = es
      ∧ GetLastError (es.foldl addError []) = es.getLast?
      ∧ GetLastError [] = none := by
  intro es
  rw [foldl_addError, List.nil_append]
  refine ⟨rfl, ?_, rfl⟩
  cases es with
  | nil => rfl
  | cons e es => simp [GetLastError]

/-- C10: the regular expressions are unanchored, so an input that is not
exactly a message shape but contains one as a substring parses
successfully, yielding the fields of the embedded matching substring
instead of the parse error. -/
theorem parseMessage_substring_match :
    parseMessage fileCopyRx "xxC0644 25 f.txt" =
      .ok [("", "C0644 25 f.txt"), ("mode", "0644"),
           ("length", "25"), ("filename", "f.txt")] := rfl

/-- C6: when the regular expression does not match, `parseMessage` fails
and the error text is exactly `"Could not parse protocol message: "`
followed by the raw input; `"Invalid msg"` matches neither the file nor
the directory shape, and produces exactly
`"Could not parse protocol message: Invalid msg"`. -/
theorem parseMessage_malformed :
    (∀ (rx : String → Option (List (String × String))) (msg : String),
      rx msg = none →
      parseMessage rx msg = .error ("Could not parse protocol message: " ++ msg))
    ∧ fileCopyRx "Invalid msg" = none
    ∧ dirCopyRx "Invalid msg" = none
    ∧ parseMessage fileCopyRx "Invalid msg" =
        .error "Could not parse protocol message: Invalid msg" := by
  refine ⟨fun rx msg h => ?_, rfl, rfl, rfl⟩
  simp [parseMessage, h]

/-- Witness for C6 at the concrete malformed input `"Invalid msg"`. -/
theorem parseMessage_malformed_witness :
    parseMessage fileCopyRx "Invalid msg" =
      .error ("Could not parse protocol message: " ++ "Invalid msg") :=
  parseMessage_malformed.1 fileCopyRx "Invalid msg" rfl

/-- C3: for every `DirCopy` message whose dirname parses, the sink
`directory` handler creates a directory at the joined `DestinationPath`
plus the declared dirname and appends the dirname to the stack; when the
path already exists, `os.Mkdir` fails, the error is returned and the stack
is left unchanged. -/
theorem directory_creates_and_pushes :
    ∀ (dest existing : List String) (msg : String) (parts : List (String × String)),
      parseMessage dirCopyRx msg = .ok parts →
      (goJoin dest ++ "/" ++ mapGet parts "dirname" ∉ existing →
        directory dest existing msg =
          ⟨some (goJoin dest ++ "/" ++ mapGet parts "dirname"), none,
           dest ++ [mapGet parts "dirname"]⟩)
      ∧ (goJoin dest ++ "/" ++ mapGet parts "dirname" ∈ existing →
        (directory dest existing msg).createdDir = none
        ∧ (directory dest existing msg).err.isSome = true
        ∧ (directory dest existing msg).stack = dest) := by
  intro dest existing msg parts h
  constructor
  · intro hmem
    simp [directory, h, hmem]
  · intro hmem
    simp [directory, h, hmem]

/-- Witness for C3: message `D0755 0 mydir` with destination `["."]` and
nothing existing creates `./mydir` and the stack becomes `[".", "mydir"]`. -/
theorem directory_creates_and_pushes_witness :
    directory ["."] [] "D0755 0 mydir" = ⟨some "./mydir", none, [".", "mydir"]⟩ :=
  (directory_creates_and_pushes ["."] [] "D0755 0 mydir"
      [("", "D0755 0 mydir"), ("mode", "0755"), ("length", "0"), ("dirname", "mydir")]
      rfl).1 (by simp)

/-- C2: for a `FileCopy` message declaring length `L`, the sink `file`
handler creates the local file at the joined `DestinationPath` plus the
declared filename; when the inbound stream holds at least `L` bytes, the
file contains exactly the first `L` bytes of the stream (empty for
`L = 0`), nothing is written to the outbound stream, and no error is
returned; when the stream holds fewer than `L` bytes, the handler writes
the single error control byte `0x02` and returns the failure. -/
theorem file_copy_exact_length :
    ∀ (dest : List String) (msg : String) (parts : List (String × String))
      (stream : List Nat) (L : Nat),
      parseMessage fileCopyRx msg = .ok parts →
      goAtoi (mapGet parts "length") = L →
      (L ≤ stream.length →
        file dest msg stream =
          ⟨some (goJoin dest ++ "/" ++ mapGet parts "filename", stream.take L),
           [], none, stream.drop L⟩)
      ∧ (stream.length < L →
        file dest msg stream =
          ⟨some (goJoin dest ++ "/" ++ mapGet parts "filename", stream.take L),
           [0x02], some "EOF", stream.drop L⟩) := by
  intro dest msg parts stream L hp hL
  constructor
  · intro hlen
    simp [file, hp, hL, Nat.not_lt.mpr hlen]
  · intro hlen
    simp [file, hp, hL, hlen]

/-- Witness for C2: message `C0755 11 hello.txt` with 11 stream bytes
(`"hello world"`) creates `./hello.txt` holding exactly those bytes, with
no error and nothing sent on the outbound stream. -/
theorem file_copy_exact_length_witness :
    file ["."] "C0755 11 hello.txt" [104, 101, 108, 108, 111, 32, 119, 111, 114, 108, 100] =
      ⟨some ("./hello.txt", [104, 101, 108, 108, 111, 32, 119, 111, 114, 108, 100]),
       [], none, []⟩ :=
  (file_copy_exact_length ["."] "C0755 11 hello.txt"
      [("", "C0755 11 hello.txt"), ("mode", "0755"), ("length", "11"),
       ("filename", "hello.txt")]
      [104, 101, 108, 108, 111, 32, 119, 111, 114, 108, 100] 11
      rfl rfl).1 (by decide)

/-- Helper: a walk with no directory entries never touches the stack. -/
theorem foldl_handleItemStack_no_dir (items : List WalkItem) (acc : List String)
    (h : ∀ i ∈ items, i.isDir = false) :
    items.foldl handleItemStack acc = acc := by
  induction items generalizing acc with
  | nil => rfl
  | cons i items ih =>
    have hi : i.isDir = false := h i (by simp)
    simp only [List.foldl_cons, handleItemStack, hi, if_false]
    exact ih acc fun j hj => h j (by simp [hj])

/-- C9: `handleUpload` resets `DestinationPath` to `[]` before the walk
and afterwards indexes element 0 of it; a walk yielding no directory entry
(for example a single file) leaves the stack empty, so the final
end-of-directory step has no valid index (`none` models Go's
index-out-of-range panic); it is well defined exactly when the stack is
non-empty. -/
theorem upload_end_requires_dir :
    (∀ items : List WalkItem, (∀ i ∈ items, i.isDir = false) →
      uploadFinalStack items = []
      ∧ endTransferEODCount (uploadFinalStack items) = none)
    ∧ (∀ stack : List String, stack ≠ [] →
      (endTransferEODCount stack).isSome = true) := by
  constructor
  · intro items h
    have he : uploadFinalStack items = [] := foldl_handleItemStack_no_dir items [] h
    exact ⟨he, by rw [he]; rfl⟩
  · intro stack h
    cases stack with
    | nil => exact absurd rfl h
    | cons p rest => rfl

/-- Witness for C9: uploading a single regular file leaves the stack
empty and the end-of-transfer indexing step undefined. -/
theorem upload_end_requires_dir_witness :
    uploadFinalStack [⟨"notes.txt", false⟩] = []
    ∧ endTransferEODCount (uploadFinalStack [⟨"notes.txt", false⟩]) = none :=
  upload_end_requires_dir.1 [⟨"notes.txt", false⟩] (by decide)

/-- C7: `Cancel` raises the signal; once raised, every subsequent `Read`
returns the `Transfer cancelled` error with the wrapped reader untouched
(the closed channel keeps the `select` receive case ready, so the
cancellation is sticky); while not raised, `Read` delegates to the wrapped
reader and returns its result unchanged. -/
theorem readCanceller_cancel_sticky :
    ∀ (r : readCanceller) (n : Nat) (reqs : List Nat),
      (Cancel r).cancelled = true
      ∧ (r.cancelled = true →
          readCancellerRead r n = (.error "Transfer cancelled", r))
      ∧ (r.cancelled = false →
          readCancellerRead r n =
            ((bufRead r.buffered n).1, { r with buffered := (bufRead r.buffered n).2 }))
      ∧ (r.cancelled = true →
          readTrace r reqs = reqs.map fun _ => .error "Transfer cancelled") := by
  intro r n reqs
  refine ⟨rfl, fun h => ?_, fun h => ?_, fun h => ?_⟩
  · simp [readCancellerRead, h]
  · simp [readCancellerRead, h]
  · induction reqs with
    | nil => rfl
    | cons a as ih => simp [readTrace, readCancellerRead, h, ih]

/-- Witness for C7: on a cancelled source every read in a sequence fails
with `Transfer cancelled` and the buffered bytes are never consumed. -/
theorem readCanceller_cancel_sticky_witness :
    readCancellerRead ⟨[7, 8], true⟩ 1 = (.error "Transfer cancelled", ⟨[7, 8], true⟩)
    ∧ readTrace ⟨[7, 8], true⟩ [1, 5] =
        [.error "Transfer cancelled", .error "Transfer cancelled"] := by
  refine ⟨(readCanceller_cancel_sticky ⟨[7, 8], true⟩ 1 []).2.1 rfl, ?_⟩
  have h := (readCanceller_cancel_sticky ⟨[7, 8], true⟩ 1 [1, 5]).2.2.2 rfl
  simpa using h

/-- Helper: `strings.Split` never yields an empty list of segments. -/
theorem splitChars_ne_nil (sep : Char) (l : List Char) : splitChars sep l ≠ [] := by
  induction l with
  | nil => simp [splitChars]
  | cons c rest ih =>
    simp only [splitChars]
    split
    · simp
    · split <;> simp

/-- Helper: a split string has at least one segment. -/
theorem goSplit_length_pos (s : String) : 0 < (goSplit s).length := by
  unfold goSplit
  rw [List.length_map]
  exact List.length_pos.mpr (splitChars_ne_nil '/' s.data)

/-- C1 (counterexample to the claim as stated): with an empty directory
stack, the joined-and-split stack still has one segment — Go's
`strings.Split` never returns zero segments, so the claim's `oldDepth > 0`
side condition holds — yet `handleItem` is guarded by the emptiness of the
stack itself and emits no end-of-directory message, while
`max 0 (oldDepth - newDepth + 1) = 1` for a depth-1 entry. -/
theorem handleItem_eod_count_counterexample :
    0 < (goSplit (goJoin ([] : List String))).length
    ∧ (handleDirItem [] "root").1 ≠
        List.replicate
          (((goSplit (goJoin ([] : List String))).length : ℤ)
            - ((goSplit "root").length : ℤ) + 1).toNat Msg.endOfDir
        ++ [Msg.dirCopy 0o644 (goBase "root")] := by
  constructor
  · decide
  · decide

/-- C1 (amended): for every directory entry handled with a non-empty
directory stack, `handleItem` emits exactly
`max 0 (oldDepth - newDepth + 1)` end-of-directory messages followed by
the `DirCopy` message, where `oldDepth` is the segment count of the joined
stack and `newDepth` that of the entry's path, and resets the stack to
exactly the entry's full path; with an empty stack it emits no
end-of-directory message. -/
theorem handleItem_eod_count :
    ∀ (stack : List String) (path : String),
      (stack ≠ [] →
        (handleDirItem stack path).1 =
          List.replicate
            (((goSplit (goJoin stack)).length : ℤ)
              - ((goSplit path).length : ℤ) + 1).toNat Msg.endOfDir
          ++ [Msg.dirCopy 0o644 (goBase path)])
      ∧ (stack = [] → (handleDirItem stack path).1 = [Msg.dirCopy 0o644 (goBase path)])
      ∧ (handleDirItem stack path).2 = [path] := by
  intro stack path
  refine ⟨fun h => ?_, fun h => ?_, rfl⟩
  · have h1 : stack.length ≠ 0 := fun hh => h (List.length_eq_zero.mp hh)
    have hcur : 0 < (goSplit (goJoin stack)).length := goSplit_length_pos _
    have hnw : 0 < (goSplit path).length := goSplit_length_pos _
    simp only [handleDirItem, h1, ne_eq, not_false_eq_true, if_true]
    by_cases hle : (goSplit path).length ≤ (goSplit (goJoin stack)).length
    · rw [if_pos hle]
      have : (goSplit (goJoin stack)).length - ((goSplit path).length - 1) =
          (((goSplit (goJoin stack)).length : ℤ)
            - ((goSplit path).length : ℤ) + 1).toNat := by omega
      rw [this]
    · rw [if_neg hle]
      have : (((goSplit (goJoin stack)).length : ℤ)
          - ((goSplit path).length : ℤ) + 1).toNat = 0 := by omega
      rw [this]
      rfl
  · subst h
    rfl

/-- Witness for C1 at the spec's sideways-move example: moving from
`root/one` to its sibling `root/two` emits exactly one end-of-directory
message before the `DirCopy`, and the stack becomes `["root/two"]`. -/
theorem handleItem_eod_count_witness :
    (handleDirItem ["root/one"] "root/two").1 =
      [Msg.endOfDir, Msg.dirCopy 0o644 "two"]
    ∧ (handleDirItem ["root/one"] "root/two").2 = ["root/two"] := by
  have h := handleItem_eod_count ["root/one"] "root/two"
  refine ⟨?_, h.2.2⟩
  rw [h.1 (by decide)]
  decide

/-- Helper: single digit characters are digits. -/
theorem digitChar_isDigit : ∀ d, d < 10 → (digitChar d).isDigit = true := by decide

/-- Helper: every character produced by `toBaseAux` in base at most 10 is
a digit. -/
theorem toBaseAux_digits (b : Nat) (hb0 : 0 < b) (hb : b ≤ 10) :
    ∀ fuel n, ∀ c ∈ toBaseAux b fuel n, c.isDigit = true := by
  intro fuel
  induction fuel with
  | zero => intro n c hc; simp [toBaseAux] at hc
  | succ f ih =>
    intro n c hc
    simp only [toBaseAux] at hc
    by_cases hn : n = 0
    · simp [hn] at hc
    · rw [if_neg hn] at hc
      rcases List.mem_append.mp hc with h1 | h2
      · exact ih _ _ h1
      · simp only [List.mem_singleton] at h2
        subst h2
        exact digitChar_isDigit _ (lt_of_lt_of_le (Nat.mod_lt _ hb0) hb)

/-- Helper: decimal renderings are non-empty digit strings. -/
theorem decChars_spec (n : Nat) : decChars n ≠ [] ∧ ∀ c ∈ decChars n, c.isDigit = true := by
  by_cases hn : n = 0
  · subst hn
    exact ⟨by decide, by decide⟩
  · have hd : decChars n = toBaseAux 10 n n := by rw [decChars, if_neg hn]
    rw [hd]
    refine ⟨?_, toBaseAux_digits 10 (by omega) (by omega) n n⟩
    cases n with
    | zero => exact absurd rfl hn
    | succ m => simp [toBaseAux]

set_option maxRecDepth 4000 in
/-- Helper: for a mode with exactly three octal digits (`0o100`–`0o777`),
`octChars` is a three-character digit string.  Decided over the finite
range. -/
theorem octChars_three_digits :
    ∀ m, m < 512 → 64 ≤ m →
      (octChars m).length = 3 ∧ ∀ c ∈ octChars m, c.isDigit = true := by decide

/-- Helper: taking digits from a digit run followed by a space stops at
the space. -/
theorem takeWhile_digits_append (ds r : List Char)
    (hd : ∀ c ∈ ds, c.isDigit = true) :
    (ds ++ ' ' :: r).takeWhile Char.isDigit = ds
    ∧ (ds ++ ' ' :: r).dropWhile Char.isDigit = ' ' :: r := by
  induction ds with
  | nil =>
    have hsp : (' ' : Char).isDigit = false := by decide
    constructor
    · simp [List.takeWhile_cons, hsp]
    · simp [List.dropWhile_cons, hsp]
  | cons d ds ih =>
    have hdig : d.isDigit = true := hd d (by simp)
    have ih2 := ih fun c hc => hd c (by simp [hc])
    constructor
    · simp [List.takeWhile_cons, hdig, ih2.1]
    · simp [List.dropWhile_cons, hdig, ih2.2]

/-- Helper: taking non-newline characters from a newline-free list keeps
all of it. -/
theorem takeWhile_no_newline (name : List Char) (h : '\n' ∉ name) :
    name.takeWhile (fun c => c ≠ '\n') = name := by
  induction name with
  | nil => rfl
  | cons c cs ih =>
    have hc : c ≠ '\n' := fun e => h (by simp [e])
    have hcs : '\n' ∉ cs := fun hm => h (by simp [hm])
    rw [List.takeWhile_cons, if_pos (by simpa using hc), ih hcs]

/-- Helper: `matchCDAt` succeeds on a well-formed encoded line and
captures its components. -/
theorem matchCDAt_encode (lead d1 d2 d3 d4 : Char) (len name : List Char)
    (h1 : d1.isDigit = true) (h2 : d2.isDigit = true) (h3 : d3.isDigit = true)
    (h4 : d4.isDigit = true) (hlen : len ≠ []) (hld : ∀ c ∈ len, c.isDigit = true)
    (hname : name ≠ []) (hnn : '\n' ∉ name) :
    matchCDAt lead (lead :: d1 :: d2 :: d3 :: d4 :: ' ' :: (len ++ ' ' :: name)) =
      some ⟨lead :: d1 :: d2 :: d3 :: d4 :: ' ' :: (len ++ ' ' :: name),
            [d1, d2, d3, d4], len, name⟩ := by
  have htw := takeWhile_digits_append len name hld
  have htn := takeWhile_no_newline name hnn
  simp only [matchCDAt, htw.1, htw.2, htn]
  simp [h1, h2, h3, h4, hlen, hname]

/-- Helper: `findCD` at a matching start position returns that match. -/
theorem findCD_cons (lead c : Char) (rest : List Char) (m : CDMatch)
    (h : matchCDAt lead (c :: rest) = some m) : findCD lead (c :: rest) = some m := by
  simp only [findCD, h]

/-- Helper: `matchTAt` succeeds on a well-formed timestamp line and
captures its components. -/
theorem matchTAt_encode (m a : List Char)
    (hm : m ≠ []) (hmd : ∀ c ∈ m, c.isDigit = true)
    (ha : a ≠ []) (had : ∀ c ∈ a, c.isDigit = true) :
    matchTAt ('T' :: (m ++ ' ' :: '0' :: ' ' :: (a ++ ' ' :: '0' :: []))) =
      some ⟨'T' :: m ++ ' ' :: '0' :: ' ' :: a ++ [' ', '0'], m, a⟩ := by
  have htw1 := takeWhile_digits_append m ('0' :: ' ' :: (a ++ ' ' :: '0' :: [])) hmd
  have htw2 := takeWhile_digits_append a ('0' :: []) had
  simp only [matchTAt, htw1.1, htw1.2, htw2.1, htw2.2]
  simp [hm, ha]

/-- Helper: `findT` at a matching start position returns that match. -/
theorem findT_cons (c : Char) (rest : List Char) (m : TMatch)
    (h : matchTAt (c :: rest) = some m) : findT (c :: rest) = some m := by
  simp only [findT, h]

/-- Helper: a non-empty string has a non-empty character list. -/
theorem string_data_ne_nil (s : String) (h : s ≠ "") : s.data ≠ [] := by
  intro hd
  apply h
  cases s with
  | mk l => cases hd; rfl

/-- C5 (amended): encoding with `sendFileMessage`/`sendDirectoryMessage`
and decoding with the matching regular expression recovers identical field
values (the mode as its `0`-prefixed octal rendering, the length as its
decimal rendering, the name verbatim), provided the mode's octal form has
exactly three digits (`0o100`–`0o777`) and the name is non-empty and
newline-free; the timestamp shape `T<mtime> 0 <atime> 0` round-trips for
all values. -/
theorem codec_round_trip (mode L : Nat) (name : String)
    (hm1 : 64 ≤ mode) (hm2 : mode < 512) (hn : name ≠ "") (hnn : '\n' ∉ name.data) :
    parseMessage fileCopyRx (sendFileMessage mode L name) =
      .ok [("", sendFileMessage mode L name),
           ("mode", String.mk ('0' :: octChars mode)),
           ("length", String.mk (decChars L)), ("filename", name)]
    ∧ parseMessage dirCopyRx (sendDirectoryMessage mode name) =
      .ok [("", sendDirectoryMessage mode name),
           ("mode", String.mk ('0' :: octChars mode)),
           ("length", "0"), ("dirname", name)]
    ∧ (∀ mt at2 : Nat, parseMessage timestampRx (timestampLine mt at2) =
      .ok [("", timestampLine mt at2), ("mtime", String.mk (decChars mt)),
           ("atime", String.mk (decChars at2))]) := by
  obtain ⟨holen, hod⟩ := octChars_three_digits mode hm2 hm1
  obtain ⟨o1, o2, o3, ho⟩ := List.length_eq_three.mp holen
  have hnd : name.data ≠ [] := string_data_ne_nil name hn
  obtain ⟨hLne, hLd⟩ := decChars_spec L
  refine ⟨?_, ?_, ?_⟩
  · have hmatch := matchCDAt_encode 'C' '0' o1 o2 o3 (decChars L) name.data
      (by decide) (hod o1 (by simp [ho])) (hod o2 (by simp [ho])) (hod o3 (by simp [ho]))
      hLne hLd hnd hnn
    have hdata : (sendFileMessage mode L name).data =
        'C' :: '0' :: o1 :: o2 :: o3 :: ' ' :: (decChars L ++ ' ' :: name.data) := by
      simp [sendFileMessage, ho]
    have hfind := findCD_cons 'C' 'C' _ _ hmatch
    simp only [parseMessage, fileCopyRx, hdata, hfind, Option.map_some]
    simp [sendFileMessage, ho]
  · have hmatch := matchCDAt_encode 'D' '0' o1 o2 o3 ('0' :: []) name.data
      (by decide) (hod o1 (by simp [ho])) (hod o2 (by simp [ho])) (hod o3 (by simp [ho]))
      (by simp) (by decide) hnd hnn
    have hdata : (sendDirectoryMessage mode name).data =
        'D' :: '0' :: o1 :: o2 :: o3 :: ' ' :: ('0' :: [] ++ ' ' :: name.data) := by
      simp [sendDirectoryMessage, ho]
    have hfind := findCD_cons 'D' 'D' _ _ hmatch
    simp only [parseMessage, dirCopyRx, hdata, hfind, Option.map_some]
    simp [sendDirectoryMessage, ho]
  · intro mt at2
    obtain ⟨hmne, hmd⟩ := decChars_spec mt
    obtain ⟨hane, had⟩ := decChars_spec at2
    have hmatch := matchTAt_encode (decChars mt) (decChars at2) hmne hmd hane had
    have hdata : (timestampLine mt at2).data =
        'T' :: (decChars mt ++ ' ' :: '0' :: ' ' :: (decChars at2 ++ ' ' :: '0' :: [])) := by
      simp [timestampLine]
    have hfind := findT_cons 'T' _ _ hmatch
    simp only [parseMessage, timestampRx, hdata, hfind, Option.map_some]
    simp [timestampLine]

/-- C5 (counterexample to the claim as stated): the claim quantifies over
every mode, length and name, but an empty dirname produces the line
`D0755 0 ` whose final `.+` group has nothing to match, so decoding the
encoded message fails with the parse error instead of recovering the
fields. -/
theorem codec_round_trip_counterexample :
    parseMessage dirCopyRx (sendDirectoryMessage 0o755 "") =
      .error "Could not parse protocol message: D0755 0 " := rfl

/-- Witness for C5 at mode `0o644`, length 25, name `helloworld.txt`, and
the timestamps of the repository's own test vector. -/
theorem codec_round_trip_witness :
    parseMessage fileCopyRx (sendFileMessage 0o644 25 "helloworld.txt") =
      .ok [("", sendFileMessage 0o644 25 "helloworld.txt"), ("mode", "0644"),
           ("length", "25"), ("filename", "helloworld.txt")]
    ∧ parseMessage timestampRx (timestampLine 1234567890 9876543210) =
      .ok [("", timestampLine 1234567890 9876543210), ("mtime", "1234567890"),
           ("atime", "9876543210")] := by
  have h := codec_round_trip 0o644 25 "helloworld.txt" (by decide) (by decide)
    (by decide) (by decide)
  exact ⟨h.1, h.2.2 1234567890 9876543210⟩
